import Mathlib

/-!
Verification of the peer-authorization and IP-allocation core of a VPN
subscription backend (Go, WireGuard).  The Go services are shallowly
embedded: database tables become lists of rows, the live WireGuard device
becomes a trace of issued device operations, and fallible external calls
(database statements, device configuration) are driven by an explicit
environment of failure flags.  Every definition is translated from the Go
source (internal/services/wireguard.go, the server service, the startup
key-synchronization loop and the data models), and the theorems settle the
specification claims about them.
-/

namespace Vpn

/-! ## Base64 decoding, modelling Go encoding/base64 StdEncoding.DecodeString

Standard alphabet, mandatory padding, newline characters (CR and LF) are
skipped, a padded quantum must end the input, non-zero trailing bits are
accepted (StdEncoding, not strict mode). -/

/-- Value of one character of the standard base64 alphabet. -/
def b64Val (c : Char) : Option Nat :=
  if 'A' ≤ c ∧ c ≤ 'Z' then some (c.toNat - 65)
  else if 'a' ≤ c ∧ c ≤ 'z' then some (c.toNat - 97 + 26)
  else if '0' ≤ c ∧ c ≤ '9' then some (c.toNat - 48 + 52)
  else if c = '+' then some 62
  else if c = '/' then some 63
  else none

/-- Decode a newline-free character stream in quantums of four, as Go's
base64 decoder does: a quantum carrying one padding character yields two
bytes, one carrying two padding characters yields one byte, and a padded
quantum must be the last one. -/
def decodeQuantums : List Char → Option (List Nat)
  | [] => some []
  | c1 :: c2 :: c3 :: c4 :: rest =>
    match b64Val c1, b64Val c2 with
    | some v1, some v2 =>
      if c3 = '=' then
        if c4 = '=' ∧ rest = [] then some [v1 * 4 + v2 / 16] else none
      else
        match b64Val c3 with
        | some v3 =>
          if c4 = '=' then
            if rest = [] then some [v1 * 4 + v2 / 16, (v2 % 16) * 16 + v3 / 4]
            else none
          else
            match b64Val c4, decodeQuantums rest with
            | some v4, some bs =>
              some ((v1 * 4 + v2 / 16) :: ((v2 % 16) * 16 + v3 / 4) ::
                    ((v3 % 4) * 64 + v4) :: bs)
            | _, _ => none
        | none => none
    | _, _ => none
  | _ => none

/-- Go base64.StdEncoding.DecodeString: skip CR and LF, then decode the
remaining characters in quantums of four. -/
def base64Decode (s : String) : Option (List Nat) :=
  decodeQuantums (s.data.filter (fun c => !(c == '\n' || c == '\r')))

/-! ## WireguardService.ValidatePublicKey -/

/-- Errors surfaced by the embedded services; one constructor per error
site of the Go source. -/
inductive VpnError where
  | validation (msg : String)
  | resourceExhausted
  | device (msg : String)
  | persistenceCount
  | persistenceUpsert
  | persistenceUpdate
  | notFound (msg : String)
  deriving Repr, DecidableEq

/-- ValidatePublicKey from wireguard.go: base64-decode the key, fail on a
decode error, fail unless the decoded length is exactly 32 bytes. -/
def validatePublicKey (publicKey : String) : Except String Unit :=
  match base64Decode publicKey with
  | none => .error "invalid base64 encoding"
  | some decoded =>
    if decoded.length = 32 then .ok ()
    else .error "invalid key length"

/-! ## Data model: the user_keys table

One row of the user_keys table (UserKey in models); UUIDs become opaque
natural numbers, timestamps become natural numbers. -/

/-- Row of the user_keys table: the PeerAuthorization record. -/
structure UserKeyRow where
  id : Nat
  userId : Nat
  serverId : Nat
  publicKey : String
  allowedIPs : String
  createdAt : Nat
  updatedAt : Nat
  isActive : Bool
  deriving Repr, DecidableEq

/-- Environment driving one service call: which external effects fail, and
the values the database would generate (clock, fresh row id). -/
structure Env where
  wgAvailable : Bool
  deviceAuthFails : Bool
  deviceRemoveFails : Bool
  dbCountFails : Bool
  dbUpsertFails : Bool
  dbUpdateFails : Bool
  now : Nat
  newId : Nat
  deriving Repr, DecidableEq

/-- Device operation issued to the WireGuard interface through
wgClient.ConfigureDevice. -/
inductive DeviceOp where
  | addPeer (publicKey allowedIPs : String)
  | removePeer (publicKey : String)
  deriving Repr, DecidableEq

/-! ## Address allocation (allocateUserIP) -/

/-- Predicate of the SQL count: rows of the server that are active. -/
def activeOnServer (serverId : Nat) (r : UserKeyRow) : Bool :=
  r.serverId == serverId && r.isActive

/-- SELECT COUNT(*) FROM user_keys WHERE server_id = $1 AND is_active = true. -/
def countActiveKeys (rows : List UserKeyRow) (serverId : Nat) : Nat :=
  (rows.filter (activeOnServer serverId)).length

/-- The Sprintf("10.0.0.%d/32", n) string. -/
def ipString (n : Nat) : String :=
  "10.0.0." ++ Nat.repr n ++ "/32"

/-- allocateUserIP from wireguard.go: count active keys of the server, fail
when the count query fails, fail with the pool-exhausted error at 253, and
otherwise hand out host count+2 of 10.0.0.0/24 as a /32. -/
def allocateUserIP (env : Env) (rows : List UserKeyRow) (serverId : Nat) :
    Except VpnError String :=
  if env.dbCountFails then .error .persistenceCount
  else
    let count := countActiveKeys rows serverId
    if count ≥ 253 then .error .resourceExhausted
    else .ok (ipString (count + 2))

/-! ## Device adapter (authorizeUserInWireGuard / removeUserFromWireGuard)

The key parse of wgtypes.ParseKey is the same base64-to-32-bytes check as
ValidatePublicKey; net.ParseCIDR is modelled on the IPv4 dotted-quad form
the service produces. -/

/-- Modelled after wgtypes.ParseKey: the string must base64-decode to
exactly 32 bytes. -/
def parseKeyOk (s : String) : Bool :=
  match base64Decode s with
  | some bs => bs.length == 32
  | none => false

/-- Split a character list at every occurrence of a separator. -/
def splitOnChar (sep : Char) : List Char → List (List Char)
  | [] => [[]]
  | c :: cs =>
    let r := splitOnChar sep cs
    if c = sep then [] :: r
    else
      match r with
      | g :: gs => (c :: g) :: gs
      | [] => [[c]]

/-- Value of a non-empty all-digit character list, read in decimal. -/
def decDigits? (cs : List Char) : Option Nat :=
  if cs ≠ [] ∧ cs.all (fun c => c.isDigit) then
    some (cs.foldl (fun n c => n * 10 + (c.toNat - 48)) 0)
  else none

/-- Modelled from net.ParseCIDR restricted to the IPv4 dotted-quad inputs
this service builds: four decimal octets up to 255 joined by dots, then a
slash and a prefix length up to 32. -/
def cidrOk (s : String) : Bool :=
  match splitOnChar '/' s.data with
  | [ipPart, maskPart] =>
    (match splitOnChar '.' ipPart with
     | [a, b, c, d] =>
       (match decDigits? a, decDigits? b, decDigits? c, decDigits? d with
        | some x1, some x2, some x3, some x4 =>
          decide (x1 ≤ 255) && decide (x2 ≤ 255) &&
          decide (x3 ≤ 255) && decide (x4 ≤ 255)
        | _, _, _, _ => false)
     | _ => false) &&
    (match decDigits? maskPart with
     | some m => decide (m ≤ 32)
     | none => false)
  | _ => false

/-- authorizeUserInWireGuard from wireguard.go: fail when the client handle
is absent, parse the public key and the allowed-IPs CIDR, then issue the
ConfigureDevice call adding the peer (25-second keepalive); the call itself
may fail. The second component is the trace of issued device operations. -/
def authorizeUserInWireGuard (env : Env) (publicKey allowedIPs : String) :
    Except VpnError Unit × List DeviceOp :=
  if !env.wgAvailable then
    (.error (.device "WireGuard client not available"), [])
  else if !parseKeyOk publicKey then
    (.error (.device "failed to parse public key"), [])
  else if !cidrOk allowedIPs then
    (.error (.device "failed to parse allowed IPs"), [])
  else if env.deviceAuthFails then
    (.error (.device "failed to configure WireGuard device"),
     [.addPeer publicKey allowedIPs])
  else (.ok (), [.addPeer publicKey allowedIPs])

/-- removeUserFromWireGuard from wireguard.go: an absent client handle
returns nil (operation allowed to continue), a bad key is a parse error
with no device call, otherwise the ConfigureDevice removal is issued and
may fail. -/
def removeUserFromWireGuard (env : Env) (publicKey : String) :
    Except VpnError Unit × List DeviceOp :=
  if !env.wgAvailable then (.ok (), [])
  else if !parseKeyOk publicKey then
    (.error (.device "failed to parse public key"), [])
  else if env.deviceRemoveFails then
    (.error (.device "failed to remove peer from WireGuard device"),
     [.removePeer publicKey])
  else (.ok (), [.removePeer publicKey])

/-! ## The user_keys upsert and the composite workflows -/

/-- Conflict target of the upsert: the UNIQUE(user_id, server_id) pair. -/
def pairMatches (uid sid : Nat) (r : UserKeyRow) : Bool :=
  r.userId == uid && r.serverId == sid

/-- DO UPDATE SET public_key, allowed_ips, updated_at = NOW(),
is_active = true. -/
def updateRow (pk ips : String) (now : Nat) (r : UserKeyRow) : UserKeyRow :=
  { r with publicKey := pk, allowedIPs := ips, updatedAt := now,
           isActive := true }

/-- INSERT INTO user_keys ... ON CONFLICT (user_id, server_id) DO UPDATE,
RETURNING the affected row. A conflicting row (unique per the schema
constraint) is updated in place; otherwise a fresh row is inserted. -/
def upsertUserKey (rows : List UserKeyRow) (uid sid : Nat) (pk ips : String)
    (now newId : Nat) : UserKeyRow × List UserKeyRow :=
  match rows.find? (pairMatches uid sid) with
  | some r0 =>
    (updateRow pk ips now r0,
     rows.map (fun r => if pairMatches uid sid r then updateRow pk ips now r
                        else r))
  | none =>
    let r : UserKeyRow :=
      { id := newId, userId := uid, serverId := sid, publicKey := pk,
        allowedIPs := ips, createdAt := now, updatedAt := now,
        isActive := true }
    (r, rows ++ [r])

/-- AddUserKey from wireguard.go, the Authorize workflow: validate the
public key, allocate an address, authorize the peer on the live device,
then upsert the registry row; when the upsert fails after a successful
device authorization, issue the compensating removal (its result is
discarded) and return the persistence error. Returns the result, the new
table and the trace of issued device operations. -/
def addUserKey (env : Env) (rows : List UserKeyRow) (userId serverId : Nat)
    (publicKey : String) :
    Except VpnError UserKeyRow × List UserKeyRow × List DeviceOp :=
  match validatePublicKey publicKey with
  | .error e => (.error (.validation e), rows, [])
  | .ok () =>
    match allocateUserIP env rows serverId with
    | .error e => (.error e, rows, [])
    | .ok allowedIPs =>
      match authorizeUserInWireGuard env publicKey allowedIPs with
      | (.error e, tr) => (.error e, rows, tr)
      | (.ok (), tr) =>
        if env.dbUpsertFails then
          let comp := removeUserFromWireGuard env publicKey
          (.error .persistenceUpsert, rows, tr ++ comp.2)
        else
          let res := upsertUserKey rows userId serverId publicKey allowedIPs
            env.now env.newId
          (.ok res.1, res.2, tr)

/-- GetUserKey from wireguard.go: the active row of (user, server). -/
def getUserKey (rows : List UserKeyRow) (uid sid : Nat) : Option UserKeyRow :=
  rows.find? (fun r => pairMatches uid sid r && r.isActive)

/-- RemoveUserKey from wireguard.go, the Deauthorize workflow: look up the
active row (absence is the not-found error, before any device call),
attempt the best-effort device removal with its result only logged, then
deactivate the row; only the UPDATE decides the result. -/
def removeUserKey (env : Env) (rows : List UserKeyRow)
    (userId serverId : Nat) :
    Except VpnError Unit × List UserKeyRow × List DeviceOp :=
  match getUserKey rows userId serverId with
  | none => (.error (.notFound "user key not found"), rows, [])
  | some row =>
    let dev := removeUserFromWireGuard env row.publicKey
    if env.dbUpdateFails then (.error .persistenceUpdate, rows, dev.2)
    else
      (.ok (),
       rows.map (fun r =>
         if pairMatches userId serverId r then
           { r with isActive := false, updatedAt := env.now }
         else r),
       dev.2)

/-- Rows of the table holding a given (user, server) pair. -/
def rowsForPair (rows : List UserKeyRow) (uid sid : Nat) : List UserKeyRow :=
  rows.filter (pairMatches uid sid)

/-- Active rows of the table holding a given (user, server) pair. -/
def activeRowsForPair (rows : List UserKeyRow) (uid sid : Nat) :
    List UserKeyRow :=
  rows.filter (fun r => pairMatches uid sid r && r.isActive)

/-- The schema constraint UNIQUE(user_id, server_id): no two rows share a
(user, server) pair. -/
def uniquePairs (rows : List UserKeyRow) : Prop :=
  rows.Pairwise (fun a b => ¬(a.userId = b.userId ∧ a.serverId = b.serverId))

/-! ## Server directory (models/server.go and the server service) -/

/-- Row of the servers table: the Server model. The private key column is
present only in the record, not in any client-facing output. -/
structure ServerRow where
  id : Nat
  name : String
  location : String
  endpoint : String
  publicKey : String
  privateKey : String
  port : Nat
  isActive : Bool
  createdAt : Nat
  updatedAt : Nat
  deriving Repr, DecidableEq

/-- ServerResponse from models/server.go: the client-facing view of a
server, with no private-key field. -/
structure ServerResponse where
  id : Nat
  name : String
  location : String
  endpoint : String
  publicKey : String
  port : Nat
  deriving Repr, DecidableEq

/-- Primitive JSON value, enough for the struct fields in play. -/
inductive JsonValue where
  | str (s : String)
  | num (n : Nat)
  | bool (b : Bool)
  deriving Repr, DecidableEq

/-- JSON object produced by marshalling a Server per its struct tags: every
field under its tag name, except PrivateKey whose tag is the dash and which
is therefore omitted. -/
def serverJSON (s : ServerRow) : List (String × JsonValue) :=
  [("id", .num s.id), ("name", .str s.name), ("location", .str s.location),
   ("endpoint", .str s.endpoint), ("public_key", .str s.publicKey),
   ("port", .num s.port), ("is_active", .bool s.isActive),
   ("created_at", .num s.createdAt), ("updated_at", .num s.updatedAt)]

/-- Projection of the server-listing SELECT: the six columns scanned into a
ServerResponse. -/
def toServerResponse (s : ServerRow) : ServerResponse :=
  { id := s.id, name := s.name, location := s.location,
    endpoint := s.endpoint, publicKey := s.publicKey, port := s.port }

/-- Comparator of ORDER BY location, name on the projected rows. -/
def serverLe (a b : ServerResponse) : Bool :=
  if a.location = b.location then decide (a.name ≤ b.name)
  else decide (a.location < b.location)

/-- Insert into a list sorted by the ORDER BY comparator. -/
def orderInsert (a : ServerResponse) :
    List ServerResponse → List ServerResponse
  | [] => [a]
  | b :: l => if serverLe a b then a :: b :: l else b :: orderInsert a l

/-- Sorting step of ORDER BY location, name (insertion sort; any sort
realizes the SQL ordering semantics). -/
def orderByLocationName : List ServerResponse → List ServerResponse
  | [] => []
  | a :: l => orderInsert a (orderByLocationName l)

/-- GetActiveServers from the server service: SELECT the six public columns
of the active servers ordered by location and name, scanned one row at a
time into ServerResponse values. -/
def getActiveServers (servers : List ServerRow) : List ServerResponse :=
  orderByLocationName
    ((servers.filter (fun s => s.isActive)).map toServerResponse)

/-! ## Config synthesizer (GenerateConfig) -/

/-- Text of the rendered WireGuard client configuration, exactly the format
string of GenerateConfig. -/
def configTemplate (clientPrivateKey address serverPublicKey
    endpoint : String) (port : Nat) : String :=
  "[Interface]\nPrivateKey = " ++ clientPrivateKey ++
  "\nAddress = " ++ address ++
  "\nDNS = 1.1.1.1, 8.8.8.8\n\n[Peer]\nPublicKey = " ++ serverPublicKey ++
  "\nEndpoint = " ++ endpoint ++ ":" ++ Nat.repr port ++
  "\nAllowedIPs = 0.0.0.0/0, ::/0\nPersistentKeepalive = 25\n"

/-- GenerateConfig from wireguard.go: fetch the active server row, fetch
the active user key of (user, server), and render the configuration
document from the server public key, endpoint and port, the stored
allocated address, and the fixed DNS, AllowedIPs and keepalive values. -/
def generateConfig (servers : List ServerRow) (rows : List UserKeyRow)
    (userId serverId : Nat) (clientPrivateKey : String) :
    Except VpnError String :=
  match servers.find? (fun s => s.id == serverId && s.isActive) with
  | none => .error (.notFound "server not found")
  | some server =>
    match getUserKey rows userId serverId with
    | none => .error (.notFound "user key not found")
    | some userKey =>
      .ok (configTemplate clientPrivateKey userKey.allowedIPs
        server.publicKey server.endpoint server.port)

/-! ## Startup key synchronization (synchronizeKeys in cmd/server) -/

/-- Outcome of the startup synchronization: success at some attempt index,
or the fatal exit after exhausting the retries. -/
inductive SyncOutcome where
  | success (attempt : Nat)
  | fatal
  deriving Repr, DecidableEq

/-- The maxRetries constant of synchronizeKeys. -/
def maxRetries : Nat := 10

/-- The fixed backoff of synchronizeKeys, in seconds. -/
def retryDelaySeconds : Nat := 5

/-- Retry loop of synchronizeKeys: attempt SyncServerPublicKey (modelled by
the given per-attempt outcome), return on the first success, sleep five
seconds after every failure, and exit fatally once the bounded attempts are
exhausted. The second component is the total seconds slept. -/
def syncLoop (attemptSucceeds : Nat → Bool) (i : Nat) :
    Nat → SyncOutcome × Nat
  | 0 => (.fatal, 0)
  | remaining + 1 =>
    if attemptSucceeds i then (.success i, 0)
    else
      let r := syncLoop attemptSucceeds (i + 1) remaining
      (r.1, r.2 + retryDelaySeconds)

/-- synchronizeKeys from the main package: the retry loop started at
attempt zero with ten attempts available. -/
def synchronizeKeys (attemptSucceeds : Nat → Bool) : SyncOutcome × Nat :=
  syncLoop attemptSucceeds 0 maxRetries

/-! ## Concrete data used by the closed witness statements -/

/-- Environment in which every external call succeeds. -/
def happyEnv : Env :=
  { wgAvailable := true, deviceAuthFails := false, deviceRemoveFails := false,
    dbCountFails := false, dbUpsertFails := false, dbUpdateFails := false,
    now := 0, newId := 0 }

/-- A well-formed 44-character public key (decodes to 32 bytes). -/
def validKey : String := String.mk (List.replicate 43 'A' ++ ['='])

/-- A user_keys table holding 253 active rows of server 1. -/
def fullTable : List UserKeyRow :=
  (List.range 253).map (fun k =>
    { id := k, userId := k, serverId := 1, publicKey := "", allowedIPs := "",
      createdAt := 0, updatedAt := 0, isActive := true })

/-- Server record used by the concrete witnesses. -/
def demoServer : ServerRow :=
  { id := 7, name := "US-East-1", location := "New York, USA",
    endpoint := "vpn-us-east.example.com", publicKey := "SPK",
    privateKey := "SSK", port := 51820, isActive := true,
    createdAt := 0, updatedAt := 0 }

/-- Authorization row used by the concrete witnesses. -/
def demoUserKey : UserKeyRow :=
  { id := 3, userId := 1, serverId := 7, publicKey := "CPK",
    allowedIPs := "10.0.0.2/32", createdAt := 0, updatedAt := 0,
    isActive := true }

/-- Authorization row with a well-formed stored key. -/
def demoActiveKey : UserKeyRow := { demoUserKey with publicKey := validKey }

/-- Environment in which only the device removal fails. -/
def revokeFailEnv : Env := { happyEnv with deviceRemoveFails := true }

/-- Environment in which the registry upsert and the compensating device
removal both fail. -/
def compEnv : Env :=
  { happyEnv with dbUpsertFails := true, deviceRemoveFails := true }

/-- Two server records agreeing on everything but the private key. -/
def privEq (a b : ServerRow) : Prop :=
  a.id = b.id ∧ a.name = b.name ∧ a.location = b.location ∧
  a.endpoint = b.endpoint ∧ a.publicKey = b.publicKey ∧ a.port = b.port ∧
  a.isActive = b.isActive ∧ a.createdAt = b.createdAt ∧
  a.updatedAt = b.updatedAt

/-- Server record with one private key. -/
def secretServerA : ServerRow := { demoServer with privateKey := "SECRET-A" }

/-- The same server record with a different private key. -/
def secretServerB : ServerRow := { demoServer with privateKey := "SECRET-B" }

/-! ## Claim C6: public-key validation -/

/-- Claim C6: ValidatePublicKey succeeds exactly on the strings that
base64-decode to 32 bytes. -/
theorem validatePublicKey_ok_iff (s : String) :
    validatePublicKey s = .ok () ↔
      ∃ bs, base64Decode s = some bs ∧ bs.length = 32 := by
  unfold validatePublicKey
  cases h : base64Decode s with
  | none => simp
  | some bs =>
    by_cases hl : bs.length = 32 <;> simp [hl]

example : validatePublicKey validKey = .ok () := rfl

example : validatePublicKey "!!!" = .error "invalid base64 encoding" := rfl

example : validatePublicKey "QUJD" = .error "invalid key length" := rfl

/-! ## Helper lemmas -/

/-- A key accepted by ValidatePublicKey is also accepted by the device
adapter key parse, which performs the same base64-to-32-bytes check. -/
theorem parseKeyOk_of_validate (pk : String)
    (h : validatePublicKey pk = .ok ()) : parseKeyOk pk = true := by
  unfold validatePublicKey at h
  unfold parseKeyOk
  cases hb : base64Decode pk with
  | none => rw [hb] at h; simp at h
  | some bs =>
    rw [hb] at h
    simp only at h ⊢
    by_cases hl : bs.length = 32
    · simp [hl]
    · simp [hl] at h

set_option maxRecDepth 100000 in
/-- Every address the allocator can produce parses as a CIDR. -/
theorem cidrOk_ipString (n : Nat) (h : n ≤ 254) : cidrOk (ipString n) = true := by
  have hall : ∀ k : Fin 255, cidrOk (ipString k.val) = true := by decide
  exact hall ⟨n, Nat.lt_succ_of_le h⟩

/-- Allocation result on the happy path. -/
theorem alloc_ok (env : Env) (rows : List UserKeyRow) (serverId : Nat)
    (hcq : env.dbCountFails = false)
    (hcnt : countActiveKeys rows serverId < 253) :
    allocateUserIP env rows serverId =
      .ok (ipString (countActiveKeys rows serverId + 2)) := by
  unfold allocateUserIP
  rw [hcq]
  simp only [Bool.false_eq_true, if_false]
  rw [if_neg (by omega)]

/-- Allocation result at pool exhaustion. -/
theorem alloc_exhausted (env : Env) (rows : List UserKeyRow) (serverId : Nat)
    (hcq : env.dbCountFails = false)
    (hcnt : countActiveKeys rows serverId ≥ 253) :
    allocateUserIP env rows serverId = .error .resourceExhausted := by
  unfold allocateUserIP
  rw [hcq]
  simp only [Bool.false_eq_true, if_false]
  rw [if_pos hcnt]

/-- Device authorization on the happy path: the peer-add call is issued and
succeeds. -/
theorem authorize_ok (env : Env) (pk ips : String)
    (hwg : env.wgAvailable = true) (hda : env.deviceAuthFails = false)
    (hpk : parseKeyOk pk = true) (hip : cidrOk ips = true) :
    authorizeUserInWireGuard env pk ips = (.ok (), [.addPeer pk ips]) := by
  unfold authorizeUserInWireGuard
  rw [hwg, hpk, hip, hda]
  rfl

/-- Device authorization with an absent client handle: error, no call. -/
theorem authorize_noClient (env : Env) (pk ips : String)
    (hwg : env.wgAvailable = false) :
    authorizeUserInWireGuard env pk ips =
      (.error (.device "WireGuard client not available"), []) := by
  unfold authorizeUserInWireGuard
  rw [hwg]
  rfl

/-- Device authorization when the ConfigureDevice call fails. -/
theorem authorize_deviceFails (env : Env) (pk ips : String)
    (hwg : env.wgAvailable = true) (hpk : parseKeyOk pk = true)
    (hip : cidrOk ips = true) (hda : env.deviceAuthFails = true) :
    authorizeUserInWireGuard env pk ips =
      (.error (.device "failed to configure WireGuard device"),
       [.addPeer pk ips]) := by
  unfold authorizeUserInWireGuard
  rw [hwg, hpk, hip, hda]
  rfl

/-- Device removal with a good key and an available handle: the removal
call is issued, succeeding or failing per the environment. -/
theorem removeWG_pair (env : Env) (pk : String)
    (hwg : env.wgAvailable = true) (hpk : parseKeyOk pk = true) :
    removeUserFromWireGuard env pk =
      ((if env.deviceRemoveFails then
          .error (.device "failed to remove peer from WireGuard device")
        else .ok ()),
       [.removePeer pk]) := by
  unfold removeUserFromWireGuard
  rw [hwg, hpk]
  cases hdr : env.deviceRemoveFails <;> rfl

/-! ## Claim C4: address allocation -/

/-- Claim C4: on a server with N currently-active authorizations, allocation
returns the single-host address 10.0.0.(N+2)/32 when N is below 253 (so
hosts 2 through 254 are handed out), and the pool-exhausted error for
every N at or above 253. -/
theorem allocateUserIP_spec (env : Env) (rows : List UserKeyRow)
    (serverId : Nat) (hc : env.dbCountFails = false) :
    (countActiveKeys rows serverId < 253 →
      allocateUserIP env rows serverId =
        .ok ("10.0.0." ++ Nat.repr (countActiveKeys rows serverId + 2) ++ "/32")
      ∧ 2 ≤ countActiveKeys rows serverId + 2
      ∧ countActiveKeys rows serverId + 2 ≤ 254) ∧
    (countActiveKeys rows serverId ≥ 253 →
      allocateUserIP env rows serverId = .error .resourceExhausted) := by
  unfold allocateUserIP
  rw [hc]
  constructor
  · intro h
    refine ⟨?_, by omega, by omega⟩
    simp only [Bool.false_eq_true, if_false]
    rw [if_neg (by omega)]
    rfl
  · intro h
    simp only [Bool.false_eq_true, if_false]
    rw [if_pos h]

set_option maxRecDepth 100000 in
theorem allocateUserIP_spec_witness :
    allocateUserIP happyEnv [] 1 = .ok "10.0.0.2/32" ∧
    allocateUserIP happyEnv fullTable 1 = .error .resourceExhausted :=
  ⟨((allocateUserIP_spec happyEnv [] 1 rfl).1 (by decide)).1,
   (allocateUserIP_spec happyEnv fullTable 1 rfl).2 (by decide)⟩

/-! ## Claim C8: the startup key-synchronization loop -/

/-- Success case of the retry loop, from an arbitrary start index. -/
theorem syncLoop_success (f : Nat → Bool) :
    ∀ n i k, k < n → (∀ j, j < k → f (i + j) = false) → f (i + k) = true →
      syncLoop f i n = (.success (i + k), retryDelaySeconds * k) := by
  intro n
  induction n with
  | zero => intro i k hk; omega
  | succ m ih =>
    intro i k hk hfail hsucc
    cases k with
    | zero =>
      simp only [syncLoop]
      rw [Nat.add_zero] at hsucc
      simp [hsucc]
    | succ k1 =>
      have h0 : f i = false := by
        have := hfail 0 (Nat.succ_pos k1)
        simpa using this
      simp only [syncLoop, h0, Bool.false_eq_true, if_false]
      have ihres := ih (i + 1) k1 (by omega)
        (fun j hj => by
          have := hfail (j + 1) (by omega)
          simpa [Nat.add_assoc, Nat.add_comm 1 j] using this)
        (by
          have : i + 1 + k1 = i + (k1 + 1) := by omega
          rw [this]; exact hsucc)
      rw [ihres]
      refine Prod.ext ?_ ?_
      · simp only []
        congr 1
        omega
      · simp only []
        ring

/-- Exhaustion case of the retry loop. -/
theorem syncLoop_fatal (f : Nat → Bool) :
    ∀ n i, (∀ j, j < n → f (i + j) = false) →
      syncLoop f i n = (.fatal, retryDelaySeconds * n) := by
  intro n
  induction n with
  | zero => intro i _; simp [syncLoop]
  | succ m ih =>
    intro i hfail
    have h0 : f i = false := by simpa using hfail 0 (Nat.succ_pos m)
    simp only [syncLoop, h0, Bool.false_eq_true, if_false]
    rw [ih (i + 1) (fun j hj => by
      have := hfail (j + 1) (by omega)
      simpa [Nat.add_assoc, Nat.add_comm 1 j] using this)]
    refine Prod.ext rfl ?_
    simp only []
    ring

/-- Attempt indices reported by the loop stay below the budget. -/
theorem syncLoop_bound (f : Nat → Bool) :
    ∀ n i k w, syncLoop f i n = (.success k, w) → i ≤ k ∧ k < i + n := by
  intro n
  induction n with
  | zero => intro i k w h; simp [syncLoop] at h
  | succ m ih =>
    intro i k w h
    simp only [syncLoop] at h
    by_cases h0 : f i = true
    · rw [if_pos h0] at h
      have : i = k := by
        have := congrArg Prod.fst h
        simpa [SyncOutcome.success.injEq] using this
      omega
    · rw [if_neg h0] at h
      have h2 : syncLoop f (i + 1) m =
          (.success k, (syncLoop f (i + 1) m).2) := by
        have hfst := congrArg Prod.fst h
        simp only [] at hfst
        exact Prod.ext hfst rfl
      have := ih (i + 1) k _ h2
      omega

/-- Claim C8: synchronizeKeys makes at most ten attempts with a fixed five-second
wait after each failure, returns at the first success (whose index is below
ten), and exhausting all ten attempts ends in the fatal startup outcome, so
the process never continues with an unsynchronized key. -/
theorem synchronizeKeys_spec (f : Nat → Bool) :
    (∀ k, k < maxRetries → (∀ j, j < k → f j = false) → f k = true →
      synchronizeKeys f = (.success k, retryDelaySeconds * k)) ∧
    ((∀ j, j < maxRetries → f j = false) →
      synchronizeKeys f = (.fatal, retryDelaySeconds * maxRetries)) ∧
    (∀ k w, synchronizeKeys f = (.success k, w) → k < maxRetries) := by
  refine ⟨?_, ?_, ?_⟩
  · intro k hk hfail hsucc
    have := syncLoop_success f maxRetries 0 k hk
      (fun j hj => by simpa using hfail j hj) (by simpa using hsucc)
    simpa [synchronizeKeys] using this
  · intro hfail
    have := syncLoop_fatal f maxRetries 0
      (fun j hj => by simpa using hfail j hj)
    simpa [synchronizeKeys] using this
  · intro k w h
    have := syncLoop_bound f maxRetries 0 k w (by simpa [synchronizeKeys] using h)
    omega

theorem synchronizeKeys_spec_witness :
    synchronizeKeys (fun i => decide (3 ≤ i)) = (.success 3, 15) ∧
    synchronizeKeys (fun _ => false) = (.fatal, 50) :=
  ⟨(synchronizeKeys_spec (fun i => decide (3 ≤ i))).1 3 (by decide)
      (by decide) (by decide),
   (synchronizeKeys_spec (fun _ => false)).2.1 (fun j _ => rfl)⟩

/-! ## Claim C9: the rendered configuration document -/

/-- Claim C9: for a user with an active authorization on an active server, the
rendered document composes the server public key and endpoint host:port,
the stored allocated address, the fixed DNS defaults, the full-tunnel
AllowedIPs and the 25-second keepalive, in the Interface/Peer layout of the
configuration template. -/
theorem generateConfig_spec (servers : List ServerRow)
    (rows : List UserKeyRow) (userId serverId : Nat) (cpk : String)
    (server : ServerRow) (userKey : UserKeyRow)
    (hs : servers.find? (fun s => s.id == serverId && s.isActive) =
      some server)
    (hk : getUserKey rows userId serverId = some userKey) :
    generateConfig servers rows userId serverId cpk =
      .ok ("[Interface]\nPrivateKey = " ++ cpk ++
           "\nAddress = " ++ userKey.allowedIPs ++
           "\nDNS = 1.1.1.1, 8.8.8.8\n\n[Peer]\nPublicKey = " ++
           server.publicKey ++
           "\nEndpoint = " ++ server.endpoint ++ ":" ++
           Nat.repr server.port ++
           "\nAllowedIPs = 0.0.0.0/0, ::/0\nPersistentKeepalive = 25\n") := by
  unfold generateConfig
  rw [hs]
  simp only
  rw [hk]
  rfl

theorem generateConfig_spec_witness :
    generateConfig [demoServer] [demoUserKey] 1 7 "CLIENTPRIV" =
      .ok ("[Interface]\nPrivateKey = CLIENTPRIV\nAddress = 10.0.0.2/32\nDNS = 1.1.1.1, 8.8.8.8\n\n[Peer]\nPublicKey = SPK\nEndpoint = vpn-us-east.example.com:51820\nAllowedIPs = 0.0.0.0/0, ::/0\nPersistentKeepalive = 25\n") := by
  have h := generateConfig_spec [demoServer] [demoUserKey] 1 7 "CLIENTPRIV"
    demoServer demoUserKey rfl rfl
  exact h

/-! ## Claim C5: Deauthorize -/

/-- Claim C5: deauthorizing a pair with no active authorization is the not-found
error with the device left untouched; with an active authorization, the
result and the stored table are decided by the deactivating update alone,
so a failing best-effort device revoke neither blocks the deactivation nor
shows up in the result. -/
theorem removeUserKey_spec (env : Env) (rows : List UserKeyRow)
    (userId serverId : Nat) :
    (getUserKey rows userId serverId = none →
      removeUserKey env rows userId serverId =
        (.error (.notFound "user key not found"), rows, [])) ∧
    (∀ row, getUserKey rows userId serverId = some row →
      removeUserKey env rows userId serverId =
        ((if env.dbUpdateFails then .error .persistenceUpdate else .ok ()),
         (if env.dbUpdateFails then rows else
           rows.map (fun r =>
             if pairMatches userId serverId r then
               { r with isActive := false, updatedAt := env.now }
             else r)),
         (removeUserFromWireGuard env row.publicKey).2)) ∧
    (∀ b c,
      (removeUserKey { env with deviceRemoveFails := b, wgAvailable := c }
          rows userId serverId).1 =
        (removeUserKey env rows userId serverId).1 ∧
      (removeUserKey { env with deviceRemoveFails := b, wgAvailable := c }
          rows userId serverId).2.1 =
        (removeUserKey env rows userId serverId).2.1) := by
  refine ⟨?_, ?_, ?_⟩
  · intro hnone
    unfold removeUserKey
    rw [hnone]
  · intro row hsome
    unfold removeUserKey
    rw [hsome]
    cases hdb : env.dbUpdateFails <;> simp [hdb]
  · intro b c
    unfold removeUserKey
    cases hg : getUserKey rows userId serverId with
    | none => exact ⟨rfl, rfl⟩
    | some row =>
      simp only
      cases hdb : env.dbUpdateFails <;> simp [hdb]

set_option maxRecDepth 100000 in
theorem removeUserKey_spec_witness :
    removeUserKey happyEnv [] 1 7 =
      (.error (.notFound "user key not found"), [], []) ∧
    removeUserKey revokeFailEnv [demoActiveKey] 1 7 =
      (.ok (),
       [{ demoActiveKey with isActive := false, updatedAt := 0 }],
       [.removePeer validKey]) := by
  constructor
  · exact (removeUserKey_spec happyEnv [] 1 7).1 rfl
  · have h := (removeUserKey_spec revokeFailEnv
      [demoActiveKey] 1 7).2.1 demoActiveKey rfl
    exact h

/-! ## Claim C2: compensation when persistence fails after device success -/

/-- Claim C2: when the device authorization succeeded and the registry upsert
fails, the workflow returns the persistence error with the table unchanged,
and the issued device trace ends with the compensating peer removal for the
key that was just authorized; the compensation outcome (the unconstrained
deviceRemoveFails flag) influences neither the result nor the table. -/
theorem addUserKey_compensation (env : Env) (rows : List UserKeyRow)
    (userId serverId : Nat) (pk : String)
    (hv : validatePublicKey pk = .ok ())
    (hwg : env.wgAvailable = true)
    (hda : env.deviceAuthFails = false)
    (hcq : env.dbCountFails = false)
    (hup : env.dbUpsertFails = true)
    (hcnt : countActiveKeys rows serverId < 253) :
    addUserKey env rows userId serverId pk =
      (.error .persistenceUpsert, rows,
       [.addPeer pk (ipString (countActiveKeys rows serverId + 2)),
        .removePeer pk]) := by
  have hpk := parseKeyOk_of_validate pk hv
  have ha := alloc_ok env rows serverId hcq hcnt
  have hb := authorize_ok env pk (ipString (countActiveKeys rows serverId + 2))
    hwg hda hpk (cidrOk_ipString _ (by omega))
  have hc := removeWG_pair env pk hwg hpk
  simp [addUserKey, hv, ha, hb, hc, hup]

theorem addUserKey_compensation_witness :
    addUserKey compEnv [] 1 7 validKey =
      (.error .persistenceUpsert, [],
       [.addPeer validKey "10.0.0.2/32", .removePeer validKey]) := by
  have h := addUserKey_compensation compEnv
    [] 1 7 validKey rfl rfl rfl rfl rfl (by decide)
  exact h

/-! ## Claim C3: failures before persistence leave the registry unwritten -/

/-- Claim C3: an Authorize call that fails at key validation, address allocation
or device authorization returns an error with the registry untouched, and a
malformed public key in particular is rejected before any device operation
is issued. -/
theorem addUserKey_failFast (env : Env) (rows : List UserKeyRow)
    (userId serverId : Nat) (pk : String) :
    (∀ e, validatePublicKey pk = .error e →
      addUserKey env rows userId serverId pk =
        (.error (.validation e), rows, [])) ∧
    (validatePublicKey pk = .ok () → env.dbCountFails = true →
      addUserKey env rows userId serverId pk =
        (.error .persistenceCount, rows, [])) ∧
    (validatePublicKey pk = .ok () → env.dbCountFails = false →
      countActiveKeys rows serverId ≥ 253 →
      addUserKey env rows userId serverId pk =
        (.error .resourceExhausted, rows, [])) ∧
    (validatePublicKey pk = .ok () → env.dbCountFails = false →
      countActiveKeys rows serverId < 253 →
      (env.wgAvailable = false ∨ env.deviceAuthFails = true) →
      (∃ msg, (addUserKey env rows userId serverId pk).1 =
        .error (.device msg)) ∧
      (addUserKey env rows userId serverId pk).2.1 = rows) := by
  refine ⟨?_, ?_, ?_, ?_⟩
  · intro e he
    simp [addUserKey, he]
  · intro hv hcq
    have ha : allocateUserIP env rows serverId = .error .persistenceCount := by
      unfold allocateUserIP
      rw [hcq]
      rfl
    simp [addUserKey, hv, ha]
  · intro hv hcq hcnt
    have ha := alloc_exhausted env rows serverId hcq hcnt
    simp [addUserKey, hv, ha]
  · intro hv hcq hcnt hdev
    have hpk := parseKeyOk_of_validate pk hv
    have ha := alloc_ok env rows serverId hcq hcnt
    rcases hdev with hwg | hda
    · have hb := authorize_noClient env pk
        (ipString (countActiveKeys rows serverId + 2)) hwg
      refine ⟨⟨"WireGuard client not available", ?_⟩, ?_⟩ <;>
        simp [addUserKey, hv, ha, hb]
    · rcases hwg2 : env.wgAvailable with _ | _
      · have hb := authorize_noClient env pk
          (ipString (countActiveKeys rows serverId + 2)) hwg2
        refine ⟨⟨"WireGuard client not available", ?_⟩, ?_⟩ <;>
          simp [addUserKey, hv, ha, hb]
      · have hb := authorize_deviceFails env pk
          (ipString (countActiveKeys rows serverId + 2)) hwg2 hpk
          (cidrOk_ipString _ (by omega)) hda
        refine ⟨⟨"failed to configure WireGuard device", ?_⟩, ?_⟩ <;>
          simp [addUserKey, hv, ha, hb]

theorem addUserKey_failFast_witness :
    addUserKey happyEnv [demoUserKey] 1 7 "!!!" =
      (.error (.validation "invalid base64 encoding"), [demoUserKey], []) ∧
    (addUserKey { happyEnv with deviceAuthFails := true } [] 1 7
        validKey).2.1 = [] := by
  constructor
  · exact (addUserKey_failFast happyEnv [demoUserKey] 1 7 "!!!").1
      "invalid base64 encoding" rfl
  · exact ((addUserKey_failFast { happyEnv with deviceAuthFails := true }
      [] 1 7 validKey).2.2.2 rfl rfl (by decide) (Or.inr rfl)).2

/-! ## Claim C1: upsert uniqueness and idempotent re-authorization -/

/-- Boolean pair match unpacked. -/
theorem pairMatches_iff (u s : Nat) (r : UserKeyRow) :
    pairMatches u s r = true ↔ (r.userId = u ∧ r.serverId = s) := by
  simp [pairMatches]

/-- The in-place update keeps the conflict-target columns. -/
theorem pairMatches_updateRow (u s : Nat) (pk ips : String) (now : Nat)
    (r : UserKeyRow) :
    pairMatches u s (updateRow pk ips now r) = pairMatches u s r := rfl

/-- With unique pairs, the rows of a pair are exactly the row found by the
conflict lookup. -/
theorem rowsForPair_of_find (uid sid : Nat) :
    ∀ rows : List UserKeyRow, uniquePairs rows →
      ∀ r0, rows.find? (pairMatches uid sid) = some r0 →
        rowsForPair rows uid sid = [r0] := by
  intro rows
  induction rows with
  | nil => intro _ r0 h; cases h
  | cons a l ih =>
    intro hu r0 hf
    have hu2 := (List.pairwise_cons.mp hu)
    rw [List.find?_cons] at hf
    cases hp : pairMatches uid sid a with
    | true =>
      rw [hp] at hf
      simp only [if_pos rfl] at hf
      obtain rfl : a = r0 := by cases hf; rfl
      have hnil : l.filter (pairMatches uid sid) = [] := by
        rw [List.filter_eq_nil_iff]
        intro b hb hpb
        have h1 := (pairMatches_iff uid sid a).mp hp
        have h2 := (pairMatches_iff uid sid b).mp hpb
        exact hu2.1 b hb ⟨h1.1.trans h2.1.symm, h1.2.trans h2.2.symm⟩
      unfold rowsForPair
      rw [List.filter_cons, hp, hnil]
      simp
    | false =>
      rw [hp] at hf
      simp only [Bool.false_eq_true, if_false] at hf
      unfold rowsForPair
      rw [List.filter_cons, hp]
      simp only [Bool.false_eq_true, if_false]
      exact ih hu2.2 r0 hf

/-- With unique pairs, a pair owns at most one row. -/
theorem rowsForPair_len_le (uid sid : Nat) :
    ∀ rows : List UserKeyRow, uniquePairs rows →
      (rowsForPair rows uid sid).length ≤ 1 := by
  intro rows
  induction rows with
  | nil => intro _; simp [rowsForPair]
  | cons a l ih =>
    intro hu
    have hu2 := (List.pairwise_cons.mp hu)
    unfold rowsForPair
    rw [List.filter_cons]
    cases hp : pairMatches uid sid a with
    | true =>
      have hnil : l.filter (pairMatches uid sid) = [] := by
        rw [List.filter_eq_nil_iff]
        intro b hb hpb
        have h1 := (pairMatches_iff uid sid a).mp hp
        have h2 := (pairMatches_iff uid sid b).mp hpb
        exact hu2.1 b hb ⟨h1.1.trans h2.1.symm, h1.2.trans h2.2.symm⟩
      rw [hnil]
      simp
    | false =>
      simp only [Bool.false_eq_true, if_false]
      exact ih hu2.2

/-- Active rows of a pair are among the rows of the pair. -/
theorem activeRowsForPair_len_le (rows : List UserKeyRow) (uid sid : Nat) :
    (activeRowsForPair rows uid sid).length ≤
      (rowsForPair rows uid sid).length := by
  unfold activeRowsForPair rowsForPair
  induction rows with
  | nil => simp
  | cons a l ih =>
    rw [List.filter_cons, List.filter_cons]
    cases hp : pairMatches uid sid a with
    | true =>
      simp only [hp, Bool.true_and, if_pos rfl]
      cases ha : a.isActive with
      | true => simpa using Nat.succ_le_succ ih
      | false =>
        simp only [Bool.false_eq_true, if_false]
        exact Nat.le_succ_of_le ih
    | false =>
      simp only [hp, Bool.false_and, Bool.false_eq_true, if_false]
      exact ih

/-- The upsert preserves the uniqueness constraint. -/
theorem upsert_uniquePairs (rows : List UserKeyRow) (uid sid : Nat)
    (pk ips : String) (now newId : Nat) (hu : uniquePairs rows) :
    uniquePairs (upsertUserKey rows uid sid pk ips now newId).2 := by
  unfold upsertUserKey
  cases hf : rows.find? (pairMatches uid sid) with
  | some r0 =>
    simp only
    rw [uniquePairs, List.pairwise_map]
    refine hu.imp ?_
    intro a b hab
    by_cases hpa : pairMatches uid sid a = true <;>
      by_cases hpb : pairMatches uid sid b = true <;>
        simp [hpa, hpb, updateRow] <;>
          exact fun hx hy => hab ⟨hx, hy⟩
  | none =>
    simp only
    rw [uniquePairs, List.pairwise_append]
    refine ⟨hu, List.pairwise_singleton _ _, ?_⟩
    intro a ha b hb
    simp only [List.mem_singleton] at hb
    subst hb
    intro hcon
    have := List.find?_eq_none.mp hf a ha
    exact this ((pairMatches_iff uid sid a).mpr ⟨hcon.1, hcon.2⟩)

/-- After the upsert, the pair owns exactly the returned row. -/
theorem upsert_rowsForPair (rows : List UserKeyRow) (uid sid : Nat)
    (pk ips : String) (now newId : Nat) (hu : uniquePairs rows) :
    rowsForPair (upsertUserKey rows uid sid pk ips now newId).2 uid sid =
      [(upsertUserKey rows uid sid pk ips now newId).1] := by
  unfold upsertUserKey
  cases hf : rows.find? (pairMatches uid sid) with
  | some r0 =>
    simp only
    unfold rowsForPair
    have hcomm : ∀ r : UserKeyRow,
        pairMatches uid sid
          (if pairMatches uid sid r then updateRow pk ips now r else r) =
        pairMatches uid sid r := by
      intro r
      by_cases hp : pairMatches uid sid r = true <;>
        simp [hp, pairMatches_updateRow]
    rw [List.filter_map]
    have : (List.filter
        (pairMatches uid sid ∘ fun r =>
          if pairMatches uid sid r = true then updateRow pk ips now r else r)
        rows) = List.filter (pairMatches uid sid) rows := by
      apply List.filter_congr
      intro r _
      exact hcomm r
    rw [this]
    have hsingle := rowsForPair_of_find uid sid rows hu r0 hf
    unfold rowsForPair at hsingle
    rw [hsingle]
    have hp0 : pairMatches uid sid r0 = true := List.find?_some hf
    simp [hp0]
  | none =>
    simp only
    unfold rowsForPair
    rw [List.filter_append]
    have hnil : rows.filter (pairMatches uid sid) = [] := by
      rw [List.filter_eq_nil_iff]
      intro b hb hpb
      exact absurd hpb (by simpa using List.find?_eq_none.mp hf b hb)
    rw [hnil]
    simp [pairMatches]

/-- Both upsert branches return a row carrying the new key, address,
update timestamp and the active flag. -/
theorem upsert_returned_row (rows : List UserKeyRow) (uid sid : Nat)
    (pk ips : String) (now newId : Nat) :
    (upsertUserKey rows uid sid pk ips now newId).1.publicKey = pk ∧
    (upsertUserKey rows uid sid pk ips now newId).1.allowedIPs = ips ∧
    (upsertUserKey rows uid sid pk ips now newId).1.updatedAt = now ∧
    (upsertUserKey rows uid sid pk ips now newId).1.isActive = true := by
  unfold upsertUserKey
  cases hf : rows.find? (pairMatches uid sid) <;>
    exact ⟨rfl, rfl, rfl, rfl⟩

/-- Workflow result on the happy path: the upsert outcome and a single
peer-add device call. -/
theorem addUserKey_happy (env : Env) (rows : List UserKeyRow)
    (userId serverId : Nat) (pk : String)
    (hv : validatePublicKey pk = .ok ())
    (hwg : env.wgAvailable = true) (hda : env.deviceAuthFails = false)
    (hcq : env.dbCountFails = false) (hup : env.dbUpsertFails = false)
    (hcnt : countActiveKeys rows serverId < 253) :
    addUserKey env rows userId serverId pk =
      (.ok (upsertUserKey rows userId serverId pk
          (ipString (countActiveKeys rows serverId + 2))
          env.now env.newId).1,
       (upsertUserKey rows userId serverId pk
          (ipString (countActiveKeys rows serverId + 2))
          env.now env.newId).2,
       [.addPeer pk (ipString (countActiveKeys rows serverId + 2))]) := by
  have hpk := parseKeyOk_of_validate pk hv
  have ha := alloc_ok env rows serverId hcq hcnt
  have hb := authorize_ok env pk
    (ipString (countActiveKeys rows serverId + 2)) hwg hda hpk
    (cidrOk_ipString _ (by omega))
  simp [addUserKey, hv, ha, hb, hup]

/-- Claim C1: starting from a table satisfying the uniqueness constraint, a
successful Authorize followed by a second successful Authorize with the
same key keeps the constraint, leaves exactly one row for the pair after
each call (the second call inserts no duplicate), and the second call
returns that single row re-activated with the new key, address and update
timestamp; every pair of the final table has at most one active row. -/
theorem addUserKey_idempotent (env1 env2 : Env) (rows : List UserKeyRow)
    (userId serverId : Nat) (pk : String)
    (hu : uniquePairs rows)
    (hv : validatePublicKey pk = .ok ())
    (h1 : env1.wgAvailable = true ∧ env1.deviceAuthFails = false ∧
          env1.dbCountFails = false ∧ env1.dbUpsertFails = false)
    (h2 : env2.wgAvailable = true ∧ env2.deviceAuthFails = false ∧
          env2.dbCountFails = false ∧ env2.dbUpsertFails = false)
    (hcnt1 : countActiveKeys rows serverId < 253)
    (hcnt2 : countActiveKeys
      (addUserKey env1 rows userId serverId pk).2.1 serverId < 253) :
    uniquePairs (addUserKey env1 rows userId serverId pk).2.1 ∧
    uniquePairs (addUserKey env2
      (addUserKey env1 rows userId serverId pk).2.1
      userId serverId pk).2.1 ∧
    (rowsForPair (addUserKey env1 rows userId serverId pk).2.1
      userId serverId).length = 1 ∧
    (rowsForPair (addUserKey env2
        (addUserKey env1 rows userId serverId pk).2.1
        userId serverId pk).2.1 userId serverId).length = 1 ∧
    (∃ r2,
      (addUserKey env2 (addUserKey env1 rows userId serverId pk).2.1
        userId serverId pk).1 = .ok r2 ∧
      rowsForPair (addUserKey env2
        (addUserKey env1 rows userId serverId pk).2.1
        userId serverId pk).2.1 userId serverId = [r2] ∧
      r2.publicKey = pk ∧
      r2.allowedIPs = ipString (countActiveKeys
        (addUserKey env1 rows userId serverId pk).2.1 serverId + 2) ∧
      r2.updatedAt = env2.now ∧ r2.isActive = true) ∧
    (∀ u s, (activeRowsForPair (addUserKey env2
        (addUserKey env1 rows userId serverId pk).2.1
        userId serverId pk).2.1 u s).length ≤ 1) := by
  obtain ⟨h1wg, h1da, h1cq, h1up⟩ := h1
  obtain ⟨h2wg, h2da, h2cq, h2up⟩ := h2
  have e1 := addUserKey_happy env1 rows userId serverId pk hv
    h1wg h1da h1cq h1up hcnt1
  set rows1 := (addUserKey env1 rows userId serverId pk).2.1 with hrows1
  have hrows1e : rows1 = (upsertUserKey rows userId serverId pk
      (ipString (countActiveKeys rows serverId + 2))
      env1.now env1.newId).2 := by
    rw [hrows1, e1]
  have hu1 : uniquePairs rows1 := by
    rw [hrows1e]
    exact upsert_uniquePairs rows userId serverId _ _ _ _ hu
  have e2 := addUserKey_happy env2 rows1 userId serverId pk hv
    h2wg h2da h2cq h2up hcnt2
  have hrows2e : (addUserKey env2 rows1 userId serverId pk).2.1 =
      (upsertUserKey rows1 userId serverId pk
        (ipString (countActiveKeys rows1 serverId + 2))
        env2.now env2.newId).2 := by
    rw [e2]
  have hu2 : uniquePairs (addUserKey env2 rows1 userId serverId pk).2.1 := by
    rw [hrows2e]
    exact upsert_uniquePairs rows1 userId serverId _ _ _ _ hu1
  have hsingle1 : rowsForPair rows1 userId serverId =
      [(upsertUserKey rows userId serverId pk
        (ipString (countActiveKeys rows serverId + 2))
        env1.now env1.newId).1] := by
    rw [hrows1e]
    exact upsert_rowsForPair rows userId serverId _ _ _ _ hu
  have hsingle2 : rowsForPair (addUserKey env2 rows1 userId serverId pk).2.1
      userId serverId =
      [(upsertUserKey rows1 userId serverId pk
        (ipString (countActiveKeys rows1 serverId + 2))
        env2.now env2.newId).1] := by
    rw [hrows2e]
    exact upsert_rowsForPair rows1 userId serverId _ _ _ _ hu1
  have hret := upsert_returned_row rows1 userId serverId pk
    (ipString (countActiveKeys rows1 serverId + 2)) env2.now env2.newId
  refine ⟨hu1, hu2, ?_, ?_, ?_, ?_⟩
  · rw [hsingle1]; rfl
  · rw [hsingle2]; rfl
  · refine ⟨(upsertUserKey rows1 userId serverId pk
      (ipString (countActiveKeys rows1 serverId + 2))
      env2.now env2.newId).1, ?_, hsingle2, hret.1, hret.2.1,
      hret.2.2.1, hret.2.2.2⟩
    rw [e2]
  · intro u s
    exact le_trans (activeRowsForPair_len_le _ u s)
      (rowsForPair_len_le u s _ hu2)

set_option maxRecDepth 100000 in
theorem addUserKey_idempotent_witness :
    (rowsForPair (addUserKey happyEnv
      (addUserKey happyEnv [] 1 7 validKey).2.1 1 7 validKey).2.1
      1 7).length = 1 := by
  have h := addUserKey_idempotent happyEnv happyEnv [] 1 7 validKey
    List.Pairwise.nil rfl ⟨rfl, rfl, rfl, rfl⟩ ⟨rfl, rfl, rfl, rfl⟩
    (by decide) (by decide)
  exact h.2.2.2.1

/-! ## Claim C10: server private keys never reach client-facing output -/

/-- Claim C10: the JSON rendering of a Server omits the private key, the listing
response type carries no private-key field, and the server-listing output
is identical for directories that differ only in private keys. -/
theorem server_privateKey_confidential (a b : ServerRow) (hab : privEq a b)
    (l1 l2 : List ServerRow) (hl : List.Forall₂ privEq l1 l2) :
    serverJSON a = serverJSON b ∧
    toServerResponse a = toServerResponse b ∧
    getActiveServers l1 = getActiveServers l2 := by
  obtain ⟨h1, h2, h3, h4, h5, h6, h7, h8, h9⟩ := hab
  refine ⟨?_, ?_, ?_⟩
  · simp [serverJSON, h1, h2, h3, h4, h5, h6, h7, h8, h9]
  · simp [toServerResponse, h1, h2, h3, h4, h5, h6]
  · unfold getActiveServers
    congr 1
    induction hl with
    | nil => rfl
    | cons hxy htail ih =>
      rename_i x y l1t l2t
      obtain ⟨g1, g2, g3, g4, g5, g6, g7, g8, g9⟩ := hxy
      simp only [List.filter_cons, g7]
      cases hy : y.isActive with
      | false => simpa using ih
      | true => simp [ih, toServerResponse, g1, g2, g3, g4, g5, g6]

theorem server_privateKey_confidential_witness :
    serverJSON secretServerA = serverJSON secretServerB ∧
    getActiveServers [secretServerA] = getActiveServers [secretServerB] := by
  have h := server_privateKey_confidential secretServerA secretServerB
    ⟨rfl, rfl, rfl, rfl, rfl, rfl, rfl, rfl, rfl⟩
    [secretServerA] [secretServerB]
    (List.Forall₂.cons ⟨rfl, rfl, rfl, rfl, rfl, rfl, rfl, rfl, rfl⟩
      List.Forall₂.nil)
  exact ⟨h.1, h.2.2⟩

end Vpn
